import Mathlib

/-!
Verification of the message-processing core of react-broadcast-sync.

The definitions below are a shallow embedding of the TypeScript sources
src/utils/messageUtils.ts and src/hooks/useBroadcastChannel.ts:
JS strings become Lean String, JS numbers become Int, optional fields
become Option, the dedup Map becomes an association list, and the
stateful hook callbacks become explicit state-passing functions.
Where JS truthiness matters (0 and undefined are falsy) the embedding
makes the check explicit.
-/

namespace ReactBroadcastSync

/-! ## JS value model (for the untyped validation gate) -/

/-- A model of the JavaScript values that can arrive as event.data: the
shapes distinguishable by the checks in isValidMessage (truthiness,
typeof, field presence, field types). -/
inductive JSValue where
  | vUndefined : JSValue
  | vNull : JSValue
  | vBool (b : Bool) : JSValue
  | vNum (n : Int) : JSValue
  | vStr (s : String) : JSValue
  | vObj (fields : List (String × JSValue)) : JSValue

/-- JS truthiness: undefined, null, false, 0 and the empty string are falsy;
every object is truthy. -/
def JSValue.truthy : JSValue → Bool
  | .vUndefined => false
  | .vNull => false
  | .vBool b => b
  | .vNum n => n != 0
  | .vStr s => s ≠ ""
  | .vObj _ => true

/-- JS typeof x === 'object' (true for objects and for null). -/
def JSValue.typeofIsObject : JSValue → Bool
  | .vNull => true
  | .vObj _ => true
  | _ => false

/-- JS 'k' in x (property presence on an object). -/
def JSValue.hasField (v : JSValue) (k : String) : Bool :=
  match v with
  | .vObj fs => fs.any (fun p => p.1 == k)
  | _ => false

/-- Property read x[k], none when absent or not an object. -/
def JSValue.getField (v : JSValue) (k : String) : Option JSValue :=
  match v with
  | .vObj fs => fs.lookup k
  | _ => none

/-- typeof x[k] === 'string'. -/
def JSValue.isStringField (v : JSValue) (k : String) : Bool :=
  match v.getField k with
  | some (.vStr _) => true
  | _ => false

/-- typeof x[k] === 'number'. -/
def JSValue.isNumberField (v : JSValue) (k : String) : Bool :=
  match v.getField k with
  | some (.vNum _) => true
  | _ => false

/-- src/utils/messageUtils.ts, isValidMessage:
Boolean(message && typeof message === 'object' && 'id' in message). -/
def isValidMessage (m : JSValue) : Bool :=
  m.truthy && m.typeofIsObject && m.hasField "id"

/-- Modelled from the spec (isWellFormed, §4.1): the strengthened structural
gate requiring id, type, source to be strings and timestamp to be a number,
each independently type-checked.  Stated for comparison with the source's
isValidMessage. -/
def isWellFormedSpec (m : JSValue) : Bool :=
  m.isStringField "id" && m.isStringField "type" &&
    m.isStringField "source" && m.isNumberField "timestamp"

/-! ## Typed message model

Messages that pass the structural gate are modelled by a typed structure
mirroring the BroadcastMessage interface of src/types/types.ts. -/

/-- The content carried in the message field: either absent (null/undefined),
a clear-criteria object as sent by clearSentMessages sync, or opaque user
data. -/
inductive MsgPayload where
  | empty : MsgPayload
  | clearCriteria (ids : Option (List String)) (types : Option (List String)) : MsgPayload
  | userData (raw : String) : MsgPayload
deriving DecidableEq

/-- BroadcastMessage (src/types/types.ts). -/
structure BroadcastMessage where
  id : String
  type : String
  payload : MsgPayload
  timestamp : Int
  source : String
  expirationDate : Option Int := none
deriving DecidableEq

/-- src/utils/messageUtils.ts, isMessageExpired:
message.expirationDate ? message.expirationDate < Date.now() : false.
The JS condition is truthiness-based, so expirationDate === 0 takes the
false branch. -/
def isMessageExpired (m : BroadcastMessage) (now : Int) : Bool :=
  match m.expirationDate with
  | none => false
  | some d => if d == 0 then false else decide (d < now)

/-- SendMessageOptions (src/types/types.ts). -/
structure SendMessageOptions where
  expirationDuration : Option Int := none
  expirationDate : Option Int := none
deriving DecidableEq

/-! ## Internal tag construction (src/utils/messageUtils.ts) -/

/-- The INTERNAL_PREFIX constant, '__INTERNAL__'. -/
def internalMark : String := "__INTERNAL__"

/-- The SECRET constant. -/
def SECRET : String := "react-broadcast-sync"

/-- The 64-character base64 alphabet in index order. -/
def base64Alphabet : List Char :=
  "ABCDEFGHIJKLMNOPQRSTUVWXYZabcdefghijklmnopqrstuvwxyz0123456789+/".toList

/-- The base64 digit for a 6-bit value. -/
def sextetChar (n : Nat) : Char := base64Alphabet.getD n '?'

/-- Base64-encode a byte list, three bytes to four digits, '=' padded. -/
def btoaBytes : List Nat → List Char
  | [] => []
  | [a] => [sextetChar (a / 4), sextetChar (a % 4 * 16), '=', '=']
  | [a, b] =>
      [sextetChar (a / 4), sextetChar (a % 4 * 16 + b / 16), sextetChar (b % 16 * 4), '=']
  | a :: b :: c :: rest =>
      sextetChar (a / 4) :: sextetChar (a % 4 * 16 + b / 16) ::
        sextetChar (b % 16 * 4 + c / 64) :: sextetChar (c % 64) :: btoaBytes rest

/-- The browser btoa: base64 of the string's code units taken as bytes
(btoa throws for code units above 255; theorems carry that bound as a
hypothesis). -/
def btoa (s : String) : String := ⟨btoaBytes (s.data.map Char.toNat)⟩

/-- All code units of the string are valid btoa input bytes. -/
abbrev Latin1 (s : String) : Prop := ∀ c ∈ s.data, c.toNat < 256

/-- src/utils/messageUtils.ts, getInternalMessageType.  The namespace
parameter is named ns because namespace is a Lean keyword. -/
def getInternalMessageType (baseType channelName ns : String) : String :=
  let fullChannel := channelName ++ "-" ++ ns
  let input := SECRET ++ ":" ++ baseType ++ ":" ++ fullChannel
  let hash := btoa input
  internalMark ++ ":" ++ baseType ++ ":" ++ hash

/-- src/utils/messageUtils.ts, isInternalType:
type.startsWith(INTERNAL_PREFIX + ':'), stated on the code-unit lists. -/
def isInternalType (t : String) : Bool :=
  (internalMark ++ ":").data.isPrefixOf t.data

/-- src/utils/messageUtils.ts, isValidInternalClearMessage: on the typed
model the three typeof-string checks hold by construction, leaving the
internal-tag test on the type field. -/
def isValidInternalClearMessage (m : BroadcastMessage) : Bool :=
  isInternalType m.type

/-- src/utils/messageUtils.ts, generateMessageId: btoa of
rand-source-timestamp with trailing '=' stripped. -/
def generateMessageId (randPart source : String) (timestamp : Int) : String :=
  ⟨((btoa (randPart ++ "-" ++ source ++ "-" ++ toString timestamp)).data.reverse.dropWhile
      (fun c => c == '=')).reverse⟩

/-- src/utils/messageUtils.ts, createMessage.  Date.now() and the random
part are explicit inputs.  expirationDate uses the nullish-coalescing and
truthiness logic of the source: an explicit expirationDate (even 0) wins;
otherwise a nonzero expirationDuration yields timestamp + duration. -/
def createMessage (msgType : String) (content : MsgPayload) (source : String)
    (opts : SendMessageOptions) (now : Int) (randPart : String) : BroadcastMessage :=
  { id := generateMessageId randPart source now
    type := msgType
    payload := content
    timestamp := now
    source := source
    expirationDate :=
      match opts.expirationDate with
      | some d => some d
      | none =>
          match opts.expirationDuration with
          | some dur => if dur == 0 then none else some (now + dur)
          | none => none }

/-! ## Endpoint state and receive pipeline (src/hooks/useBroadcastChannel.ts) -/

/-- The option values the receive pipeline reads, resolved as in the hook's
destructuring defaults. -/
structure EndpointConfig where
  source : String
  channelName : String
  ns : String := ""
  registeredTypes : List String := []
  keepLatestMessage : Bool := false
  deduplicationTTL : Int := 5 * 60 * 1000

/-- internalTypes.CLEAR_SENT_MESSAGES of the hook. -/
def clearTag (cfg : EndpointConfig) : String :=
  getInternalMessageType "CLEAR_SENT_MESSAGES" cfg.channelName cfg.ns

/-- internalTypes.PING of the hook. -/
def pingTag (cfg : EndpointConfig) : String :=
  getInternalMessageType "PING" cfg.channelName cfg.ns

/-- internalTypes.PONG of the hook. -/
def pongTag (cfg : EndpointConfig) : String :=
  getInternalMessageType "PONG" cfg.channelName cfg.ns

/-- The state handleMessage reads and writes: the messages React state and
the receivedMessageIds Map (as an association list). -/
structure EndpointState where
  messages : List BroadcastMessage := []
  receivedMessageIds : List (String × Int) := []
deriving DecidableEq

/-- Map.get on the dedup map. -/
def dedupGet (m : List (String × Int)) (k : String) : Option Int :=
  m.lookup k

/-- Map.set on the dedup map (replaces any entry for the key). -/
def dedupSet (m : List (String × Int)) (k : String) (v : Int) : List (String × Int) :=
  (k, v) :: m.filter (fun p => p.1 ≠ k)

/-- The destructuring const (ids = [], types = []) = message.message || (),
with empty-object fallback for falsy or non-criteria payloads. -/
def clearCriteriaOf (p : MsgPayload) : List String × List String :=
  match p with
  | .clearCriteria ids types => (ids.getD [], types.getD [])
  | _ => ([], [])

/-- The keep predicate of the CLEAR_SENT_MESSAGES branch of handleMessage:
keep messages from other senders; for the clearing sender remove when both
the ids and the types criterion match, an empty list acting as wildcard. -/
def remoteClearKeep (clearSource : String) (ids types : List String)
    (msg : BroadcastMessage) : Bool :=
  if msg.source ≠ clearSource then true
  else
    let idMatches := ids.isEmpty || ids.contains msg.id
    let typeMatches := types.isEmpty || types.contains msg.type
    !(idMatches && typeMatches)

/-- The guard receivedAt && now - receivedAt < deduplicationTTL:
a recorded receipt time of 0 is falsy in JS and so never counts as a hit. -/
def dedupHit (receivedAt : Option Int) (now ttl : Int) : Bool :=
  match receivedAt with
  | none => false
  | some t => if t == 0 then false else decide (now - t < ttl)

/-- The tail of handleMessage after the internal-message block: allow-list,
expiry and deduplication guards, then acceptance.  The second component
records whether the final setMessages ran and with which message. -/
def handleUserCore (cfg : EndpointConfig) (st : EndpointState) (now : Int)
    (m : BroadcastMessage) : EndpointState × Option BroadcastMessage :=
  if cfg.registeredTypes.length > 0 && !(cfg.registeredTypes.contains m.type) then (st, none)
  else if isMessageExpired m now then (st, none)
  else if dedupHit (dedupGet st.receivedMessageIds m.id) now cfg.deduplicationTTL then (st, none)
  else
    ({ messages := if cfg.keepLatestMessage then [m] else st.messages ++ [m]
       receivedMessageIds := dedupSet st.receivedMessageIds m.id now }, some m)

/-- handleMessage of the hook (the isValidMessage gate holds by typing; the
PING branch posts a PONG and the PONG branch feeds the probe collector,
neither touching this state).  When the type is internal-tagged but equals
none of this endpoint's three tags, control falls out of the if block and
continues with the user-message guards, exactly as in the source. -/
def handleMessageCore (cfg : EndpointConfig) (st : EndpointState) (now : Int)
    (m : BroadcastMessage) : EndpointState × Option BroadcastMessage :=
  if m.source == cfg.source then (st, none)
  else if isValidInternalClearMessage m then
    if m.type == clearTag cfg then
      ({ messages :=
           st.messages.filter
             (remoteClearKeep m.source (clearCriteriaOf m.payload).1 (clearCriteriaOf m.payload).2)
         receivedMessageIds := st.receivedMessageIds }, none)
    else if m.type == pingTag cfg then (st, none)
    else if m.type == pongTag cfg then (st, none)
    else handleUserCore cfg st now m
  else handleUserCore cfg st now m

/-- The state transition of handleMessage. -/
def handleMessage (cfg : EndpointConfig) (st : EndpointState) (now : Int)
    (m : BroadcastMessage) : EndpointState :=
  (handleMessageCore cfg st now m).1

/-- performCleanup of the hook: drop expired messages. -/
def performCleanup (now : Int) (msgs : List BroadcastMessage) : List BroadcastMessage :=
  msgs.filter (fun m => !(isMessageExpired m now))

/-- ClearReceivedMessagesOptions (src/types/types.ts): each criterion list
may be absent. -/
structure ClearReceivedMessagesOptions where
  ids : Option (List String) := none
  types : Option (List String) := none
  sources : Option (List String) := none
deriving DecidableEq

/-- options.xs && options.xs.length, as a Bool. -/
def optNonempty (o : Option (List String)) : Bool :=
  match o with
  | none => false
  | some l => l.length != 0

/-- options.xs && options.xs.includes(v), as a Bool. -/
def optIncludes (o : Option (List String)) (v : String) : Bool :=
  match o with
  | none => false
  | some l => l.contains v

/-- clearReceivedMessages of the hook: with at least one nonempty criterion
it keeps a message only when no provided criterion list contains the
matching field; with no criteria it clears everything. -/
def clearReceivedMessages (opts : ClearReceivedMessagesOptions)
    (prev : List BroadcastMessage) : List BroadcastMessage :=
  let hasFilters := optNonempty opts.ids || optNonempty opts.types || optNonempty opts.sources
  if hasFilters then
    prev.filter (fun msg =>
      !(optIncludes opts.ids msg.id) && !(optIncludes opts.types msg.type) &&
        !(optIncludes opts.sources msg.source))
  else []

/-- Modelled from the spec (§4.6 local clear of received messages): a
message is removed when every provided non-wildcard criterion matches it,
an omitted or empty list acting as wildcard; no criteria clears everything.
Stated for comparison with the source's clearReceivedMessages. -/
def clearReceivedMessagesSpec (opts : ClearReceivedMessagesOptions)
    (prev : List BroadcastMessage) : List BroadcastMessage :=
  let critMatch : Option (List String) → String → Bool := fun o v =>
    match o with
    | none => true
    | some l => l.isEmpty || l.contains v
  prev.filter (fun msg =>
    !(critMatch opts.ids msg.id && critMatch opts.types msg.type &&
        critMatch opts.sources msg.source))

/-- The dedup garbage-collection sweep of the hook: delete entries whose
receipt time is at least deduplicationTTL in the past. -/
def purgeDedup (now ttl : Int) (m : List (String × Int)) : List (String × Int) :=
  m.filter (fun p => !(decide (now - p.2 ≥ ttl)))

/-! ## Send/batch coordinator (postMessage of the hook) -/

/-- The mutable cells of the batching layer: batchingMessagesRef,
batchingErrorRef and (as a Bool) batchingTimeoutRef. -/
structure BatchState where
  buffer : List BroadcastMessage := []
  errorFlag : Bool := false
  timerArmed : Bool := false
deriving DecidableEq

/-- The setTimeout callback armed by postMessage when batching.  sendOk
tells whether channel.postMessage of the buffer would throw.  Returns the
new cells and the transmitted batch, if any.  In the early-return branch
for a prior error the source clears the buffer and the timer but leaves
batchingErrorRef untouched. -/
def onBatchTimerFire (st : BatchState) (sendOk : Bool) :
    BatchState × Option (List BroadcastMessage) :=
  if st.errorFlag then
    ({ buffer := [], errorFlag := st.errorFlag, timerArmed := false }, none)
  else if sendOk then
    ({ buffer := [], errorFlag := st.errorFlag, timerArmed := false }, some st.buffer)
  else
    ({ buffer := [], errorFlag := true, timerArmed := false }, none)

/-! ## Operation traces over the received-message state -/

/-- The operations that mutate the received-message collection: an inbound
envelope through handleMessage (acceptance and remote clear), the periodic
expiry sweep, and a local clearReceivedMessages call. -/
inductive EndpointOp where
  | receive (now : Int) (m : BroadcastMessage) : EndpointOp
  | sweep (now : Int) : EndpointOp
  | clearReceived (opts : ClearReceivedMessagesOptions) : EndpointOp

/-- One operation, also reporting the accepted envelope when the receive
pipeline's final setMessages ran. -/
def applyOpCore (cfg : EndpointConfig) (st : EndpointState) :
    EndpointOp → EndpointState × Option BroadcastMessage
  | .receive now m => handleMessageCore cfg st now m
  | .sweep now => ({ st with messages := performCleanup now st.messages }, none)
  | .clearReceived opts => ({ st with messages := clearReceivedMessages opts st.messages }, none)

/-- Run a trace of operations, accumulating the accepted envelopes in
order. -/
def runOpsLog (cfg : EndpointConfig) :
    EndpointState × List BroadcastMessage → List EndpointOp →
      EndpointState × List BroadcastMessage
  | (st, log), [] => (st, log)
  | (st, log), op :: rest =>
      let r := applyOpCore cfg st op
      runOpsLog cfg (r.1, log ++ r.2.toList) rest

/-! ## Base64 decoding (used only to prove btoa injective) -/

/-- The index of a base64 digit in the alphabet. -/
def unsextet (c : Char) : Nat := base64Alphabet.indexOf c

/-- Inverse of btoaBytes on well-formed output. -/
def atobChars : List Char → List Nat
  | w :: x :: y :: z :: rest =>
      if z == '=' then
        if y == '=' then [unsextet w * 4 + unsextet x / 16]
        else [unsextet w * 4 + unsextet x / 16, unsextet x % 16 * 16 + unsextet y / 4]
      else
        (unsextet w * 4 + unsextet x / 16) ::
          (unsextet x % 16 * 16 + unsextet y / 4) ::
            (unsextet y % 4 * 64 + unsextet z) :: atobChars rest
  | _ => []

/-! ## Helper lemmas on strings and base64 -/

/-- Helper: string equality follows from equality of the code-unit lists. -/
theorem string_ext {s t : String} (h : s.data = t.data) : s = t := by
  cases s
  cases t
  exact congrArg String.mk h

/-- Helper: the code units of a concatenation. -/
theorem string_data_append (s t : String) : (s ++ t).data = s.data ++ t.data := rfl

/-- Helper: Latin1 is preserved by concatenation. -/
theorem latin1_append {s t : String} (hs : Latin1 s) (ht : Latin1 t) : Latin1 (s ++ t) := by
  intro c hc
  rw [string_data_append, List.mem_append] at hc
  rcases hc with h | h
  · exact hs c h
  · exact ht c h

/-- Helper: looking up a base64 digit recovers its 6-bit value. -/
theorem unsextet_sextetChar : ∀ n : Nat, n < 64 → unsextet (sextetChar n) = n := by
  decide

/-- Helper: base64 digits are never the padding character. -/
theorem sextetChar_ne_pad : ∀ n : Nat, n < 64 → (sextetChar n == '=') = false := by
  decide

/-- Helper: atobChars recovers the byte list from its btoaBytes encoding. -/
theorem atob_btoaBytes : ∀ l : List Nat, (∀ x ∈ l, x < 256) → atobChars (btoaBytes l) = l
  | [], _ => rfl
  | [a], h => by
      have ha : a < 256 := h a (by simp)
      simp only [btoaBytes, atobChars]
      rw [unsextet_sextetChar _ (by omega), unsextet_sextetChar _ (by omega)]
      simp
      all_goals omega
  | [a, b], h => by
      have ha : a < 256 := h a (by simp)
      have hb : b < 256 := h b (by simp)
      simp only [btoaBytes, atobChars, if_pos rfl, sextetChar_ne_pad (b % 16 * 4) (by omega),
        if_false, Bool.false_eq_true]
      rw [unsextet_sextetChar _ (by omega), unsextet_sextetChar _ (by omega),
        unsextet_sextetChar _ (by omega)]
      have h1 : a / 4 * 4 + (a % 4 * 16 + b / 16) / 16 = a := by omega
      have h2 : (a % 4 * 16 + b / 16) % 16 * 16 + b % 16 * 4 / 4 = b := by omega
      simp [h1, h2]
      all_goals omega
  | a :: b :: c :: rest, h => by
      have ha : a < 256 := h a (by simp)
      have hb : b < 256 := h b (by simp)
      have hc : c < 256 := h c (by simp)
      have ih := atob_btoaBytes rest (fun x hx => h x (by simp [hx]))
      simp only [btoaBytes, atobChars, sextetChar_ne_pad (c % 64) (by omega), if_false,
        Bool.false_eq_true]
      rw [unsextet_sextetChar _ (by omega), unsextet_sextetChar _ (by omega),
        unsextet_sextetChar _ (by omega), unsextet_sextetChar _ (by omega), ih]
      have h1 : a / 4 * 4 + (a % 4 * 16 + b / 16) / 16 = a := by omega
      have h2 : (a % 4 * 16 + b / 16) % 16 * 16 + (b % 16 * 4 + c / 64) / 4 = b := by omega
      have h3 : (b % 16 * 4 + c / 64) % 4 * 64 + c % 64 = c := by omega
      simp [h1, h2, h3]

/-- Helper: btoaBytes is injective on byte lists. -/
theorem btoaBytes_inj {l₁ l₂ : List Nat} (h₁ : ∀ x ∈ l₁, x < 256) (h₂ : ∀ x ∈ l₂, x < 256)
    (he : btoaBytes l₁ = btoaBytes l₂) : l₁ = l₂ := by
  have hdec := congrArg atobChars he
  rwa [atob_btoaBytes l₁ h₁, atob_btoaBytes l₂ h₂] at hdec

/-- Helper: Char.toNat is injective. -/
theorem char_toNat_inj : Function.Injective Char.toNat := by
  intro a b h
  have ha := Char.ofNat_toNat a
  have hb := Char.ofNat_toNat b
  rw [← ha, ← hb, h]

/-- Helper: btoa is injective on strings whose code units fit in a byte. -/
theorem btoa_inj {s₁ s₂ : String} (h₁ : Latin1 s₁) (h₂ : Latin1 s₂)
    (he : btoa s₁ = btoa s₂) : s₁ = s₂ := by
  have hd : btoaBytes (s₁.data.map Char.toNat) = btoaBytes (s₂.data.map Char.toNat) :=
    congrArg String.data he
  have hb₁ : ∀ x ∈ s₁.data.map Char.toNat, x < 256 := by
    intro x hx
    rcases List.mem_map.mp hx with ⟨c, hc, rfl⟩
    exact h₁ c hc
  have hb₂ : ∀ x ∈ s₂.data.map Char.toNat, x < 256 := by
    intro x hx
    rcases List.mem_map.mp hx with ⟨c, hc, rfl⟩
    exact h₂ c hc
  have hmap := btoaBytes_inj hb₁ hb₂ hd
  exact string_ext (List.map_injective_iff.mpr char_toNat_inj hmap)

/-- Helper: every constructed internal tag is recognised by isInternalType. -/
theorem isInternalType_getInternalMessageType (b c n : String) :
    isInternalType (getInternalMessageType b c n) = true := by
  unfold isInternalType getInternalMessageType
  have hsplit :
      (internalMark ++ ":" ++ b ++ ":" ++ btoa (SECRET ++ ":" ++ b ++ ":" ++ (c ++ "-" ++ n))).data =
        (internalMark ++ ":").data ++
          (b.data ++ (":".data ++ (btoa (SECRET ++ ":" ++ b ++ ":" ++ (c ++ "-" ++ n))).data)) := by
    simp [string_data_append, List.append_assoc]
  rw [hsplit, List.isPrefixOf_iff_prefix]
  exact List.prefix_append _ _

/-! ## Concrete sample values -/

/-- A sample user message used in concrete instantiations. -/
def mSample : BroadcastMessage :=
  { id := "m1", type := "x", payload := .empty, timestamp := 1, source := "s1" }

/-- A sample message carrying an expirationDate of 0. -/
def mZeroExp : BroadcastMessage :=
  { id := "m0", type := "t", payload := .empty, timestamp := 1, source := "s1",
    expirationDate := some 0 }

/-! ## Claim theorems -/

/-- C2: the claim states that isValidMessage returns true only for objects
whose id, type and source are strings and whose timestamp is a number.
Evaluating the source's gate at the failing input: an object whose only
field is a numeric id is accepted by the code, while the strengthened gate
the claim (and the repository's own documentation) describes rejects it. -/
theorem C2_isValidMessage_weaker_than_claimed :
    isValidMessage (JSValue.vObj [("id", JSValue.vNum 42)]) = true ∧
      isWellFormedSpec (JSValue.vObj [("id", JSValue.vNum 42)]) = false := by
  constructor <;> rfl

/-- C1: the claim states AND-across-criteria removal semantics for
clearReceivedMessages.  Evaluating the code at the failing input: with
criteria ids = [a], types = [x], a message with id b and type x matches
only the types criterion, yet the code removes it (OR across criteria),
while the AND semantics of the claim and of the repository's own
documentation keeps it. -/
theorem C1_clearReceived_or_across_criteria :
    clearReceivedMessages { ids := some ["a"], types := some ["x"] }
        [{ id := "b", type := "x", payload := .empty, timestamp := 1, source := "s1" }] = [] ∧
      clearReceivedMessagesSpec { ids := some ["a"], types := some ["x"] }
          [{ id := "b", type := "x", payload := .empty, timestamp := 1, source := "s1" }] =
        [{ id := "b", type := "x", payload := .empty, timestamp := 1, source := "s1" }] := by
  constructor <;> rfl

/-- C7: an envelope created with this endpoint's own identity as source is
never added to the endpoint's received collection: the self-origin filter
returns before any state mutation, for every configuration (in particular
every allow-list). -/
theorem C7_self_exclusion (cfg : EndpointConfig) (st : EndpointState) (now created : Int)
    (msgType : String) (content : MsgPayload) (opts : SendMessageOptions) (randPart : String) :
    handleMessage cfg st now (createMessage msgType content cfg.source opts created randPart) = st := by
  simp [handleMessage, handleMessageCore, createMessage]

/-- C10: an envelope whose expirationDate is present but 0 is treated as
never expiring: isMessageExpired is false at every evaluation time, and the
periodic expiry sweep keeps the message. -/
theorem C10_zero_expirationDate_never_expires (m : BroadcastMessage)
    (h : m.expirationDate = some 0) :
    (∀ now : Int, isMessageExpired m now = false) ∧
      (∀ (now : Int) (msgs : List BroadcastMessage), m ∈ msgs → m ∈ performCleanup now msgs) := by
  have he : ∀ now : Int, isMessageExpired m now = false := by
    intro now
    simp [isMessageExpired, h]
  refine ⟨he, ?_⟩
  intro now msgs hm
  simp [performCleanup, List.mem_filter, hm, he now]

/-- C10 witness: the theorem instantiated at a concrete zero-expiry message,
a concrete clock and a concrete collection. -/
theorem C10_witness :
    isMessageExpired mZeroExp 999999 = false ∧ mZeroExp ∈ performCleanup 999999 [mZeroExp] :=
  ⟨(C10_zero_expirationDate_never_expires mZeroExp rfl).1 999999,
    (C10_zero_expirationDate_never_expires mZeroExp rfl).2 999999 [mZeroExp] (by simp)⟩

/-- C5 counterexample: when the batching timer fires after a failure in the
window, the source discards the buffer and disarms the timer but leaves the
error flag set, contradicting the claim that the flag is reset. -/
theorem C5_counterexample :
    (onBatchTimerFire { buffer := [mSample], errorFlag := true, timerArmed := true } true).2 =
        none ∧
      ((onBatchTimerFire { buffer := [mSample], errorFlag := true, timerArmed := true } true).1).errorFlag =
        true := by
  constructor <;> rfl

/-- C5 amended: when the timer fires after a failure in the window, the
buffer is discarded without transmitting, the timer is disarmed, and the
error flag remains set (it is only reset on endpoint teardown), so later
windows are also discarded until then. -/
theorem C5_batch_discard_keeps_error_flag (st : BatchState) (sendOk : Bool)
    (h : st.errorFlag = true) :
    onBatchTimerFire st sendOk = ({ buffer := [], errorFlag := true, timerArmed := false }, none) := by
  simp [onBatchTimerFire, h]

/-- C5 witness: the amended theorem at a concrete poisoned batch state. -/
theorem C5_witness :
    onBatchTimerFire { buffer := [mSample], errorFlag := true, timerArmed := true } true =
      ({ buffer := [], errorFlag := true, timerArmed := false }, none) :=
  C5_batch_discard_keeps_error_flag
    { buffer := [mSample], errorFlag := true, timerArmed := true } true rfl

/-- C4 counterexample: the tag constructor is not injective on
(baseName, channelName, namespace) tuples: the dash-joined channel and
namespace are ambiguous, so the distinct tuples (PING, a-b, c) and
(PING, a, b-c) produce the same tag string. -/
theorem C4_counterexample :
    getInternalMessageType "PING" "a-b" "c" = getInternalMessageType "PING" "a" "b-c" ∧
      (("a-b", "c") : String × String) ≠ ("a", "b-c") := by
  constructor
  · rfl
  · decide

/-- C4 amended: for a fixed base name and namespace the tag constructor is
injective in the channel name (over valid btoa inputs, i.e. strings whose
code units fit in a byte), and every produced tag starts with the reserved
internal mark; tuples whose channelName-namespace concatenations coincide,
however, collide. -/
theorem C4_internal_tag_injective_per_channel (b c₁ c₂ ns : String)
    (hb : Latin1 b) (hc₁ : Latin1 c₁) (hc₂ : Latin1 c₂) (hns : Latin1 ns) :
    (getInternalMessageType b c₁ ns = getInternalMessageType b c₂ ns ↔ c₁ = c₂) ∧
      isInternalType (getInternalMessageType b c₁ ns) = true := by
  refine ⟨⟨?_, fun h => by rw [h]⟩, isInternalType_getInternalMessageType b c₁ ns⟩
  intro h
  have hd := congrArg String.data h
  simp only [getInternalMessageType, string_data_append, List.append_assoc] at hd
  have h4 :=
    List.append_cancel_left (List.append_cancel_left (List.append_cancel_left
      (List.append_cancel_left hd)))
  have hbt : btoa (SECRET ++ ":" ++ b ++ ":" ++ (c₁ ++ "-" ++ ns)) =
      btoa (SECRET ++ ":" ++ b ++ ":" ++ (c₂ ++ "-" ++ ns)) := string_ext h4
  have hsec : Latin1 SECRET := by decide
  have hcolon : Latin1 ":" := by decide
  have hdash : Latin1 "-" := by decide
  have hl₁ : Latin1 (SECRET ++ ":" ++ b ++ ":" ++ (c₁ ++ "-" ++ ns)) :=
    latin1_append (latin1_append (latin1_append (latin1_append hsec hcolon) hb) hcolon)
      (latin1_append (latin1_append hc₁ hdash) hns)
  have hl₂ : Latin1 (SECRET ++ ":" ++ b ++ ":" ++ (c₂ ++ "-" ++ ns)) :=
    latin1_append (latin1_append (latin1_append (latin1_append hsec hcolon) hb) hcolon)
      (latin1_append (latin1_append hc₂ hdash) hns)
  have hin := btoa_inj hl₁ hl₂ hbt
  have hd₂ := congrArg String.data hin
  simp only [string_data_append, List.append_assoc] at hd₂
  have g4 :=
    List.append_cancel_left (List.append_cancel_left (List.append_cancel_left
      (List.append_cancel_left hd₂)))
  exact string_ext (List.append_cancel_right g4)

/-- C4 witness: the amended theorem at concrete inputs: with the same PING
base name and empty namespace the chanA and chanB tags differ, and the
chanA tag carries the internal mark. -/
theorem C4_witness :
    (getInternalMessageType "PING" "chanA" "" = getInternalMessageType "PING" "chanB" "" ↔
        ("chanA" : String) = "chanB") ∧
      isInternalType (getInternalMessageType "PING" "chanA" "") = true :=
  C4_internal_tag_injective_per_channel "PING" "chanA" "chanB" ""
    (by decide) (by decide) (by decide) (by decide)

/-- A sample endpoint configuration on channel chanA. -/
def cfgA : EndpointConfig := { source := "me", channelName := "chanA" }

/-- An envelope carrying an internal tag of a different channel (chanB),
arriving at the chanA endpoint. -/
def mForeignInternal : BroadcastMessage :=
  { id := "f1", type := getInternalMessageType "PING" "chanB" "", payload := .empty,
    timestamp := 1, source := "other" }

/-- A PING control envelope addressed to the chanA endpoint. -/
def mPingA : BroadcastMessage :=
  { id := "p1", type := pingTag cfgA, payload := .empty, timestamp := 1, source := "other" }

/-- C3 counterexample: an envelope that passes shape validation and the
self-origin filter and carries the reserved internal tag of a different
channel does not terminate at the control-routing step: it falls through
the if block and is appended to the user-visible received collection
(with the default empty allow-list). -/
theorem C3_counterexample :
    isInternalType mForeignInternal.type = true ∧
      (handleMessage cfgA { } 5 mForeignInternal).messages = [mForeignInternal] := by
  constructor
  · rfl
  · rfl

/-- C3 amended: the pipeline terminates at the control-routing step exactly
for the endpoint's own three control tags: when the envelope's type equals
this endpoint's CLEAR_SENT_MESSAGES, PING or PONG tag, the received
collection never grows (it is a sublist of the previous one) and the
deduplication state is untouched; an internal-tagged envelope matching none
of the three falls through to the user-message guards. -/
theorem C3_own_control_tags_terminate (cfg : EndpointConfig) (st : EndpointState) (now : Int)
    (m : BroadcastMessage) (hs : m.source ≠ cfg.source)
    (hin : m.type = clearTag cfg ∨ m.type = pingTag cfg ∨ m.type = pongTag cfg) :
    (handleMessage cfg st now m).messages.Sublist st.messages ∧
      (handleMessage cfg st now m).receivedMessageIds = st.receivedMessageIds := by
  have hsb : (m.source == cfg.source) = false := beq_eq_false_iff_ne.mpr hs
  have hint : isValidInternalClearMessage m = true := by
    rcases hin with h | h | h <;>
      simp [isValidInternalClearMessage, h, clearTag, pingTag, pongTag,
        isInternalType_getInternalMessageType]
  unfold handleMessage handleMessageCore
  split_ifs <;>
    first
      | exact ⟨List.filter_sublist _, rfl⟩
      | exact ⟨List.Sublist.refl _, rfl⟩
      | (exfalso; simp_all)

/-- C3 witness: the amended theorem at the chanA endpoint receiving its own
PING tag from another source, starting from the empty state. -/
theorem C3_witness :
    (handleMessage cfgA { } 5 mPingA).messages.Sublist ({ } : EndpointState).messages ∧
      (handleMessage cfgA { } 5 mPingA).receivedMessageIds =
        ({ } : EndpointState).receivedMessageIds :=
  C3_own_control_tags_terminate cfgA { } 5 mPingA (by decide) (Or.inr (Or.inl rfl))

/-- C9: processing a remote-clear control envelope keeps exactly the
messages that either come from a different source than the clearing
envelope or fail one of the carried criteria; removal requires the source
to match and every criterion to match, with an empty list as wildcard. -/
theorem C9_remote_clear_scoped (cfg : EndpointConfig) (st : EndpointState) (now : Int)
    (m : BroadcastMessage) (ids types : List String) (x : BroadcastMessage)
    (hs : m.source ≠ cfg.source) (ht : m.type = clearTag cfg)
    (hp : clearCriteriaOf m.payload = (ids, types)) :
    x ∈ (handleMessage cfg st now m).messages ↔
      x ∈ st.messages ∧
        ¬(x.source = m.source ∧ (ids = [] ∨ x.id ∈ ids) ∧ (types = [] ∨ x.type ∈ types)) := by
  have hsb : (m.source == cfg.source) = false := beq_eq_false_iff_ne.mpr hs
  have hint : isValidInternalClearMessage m = true := by
    simp [isValidInternalClearMessage, ht, clearTag, isInternalType_getInternalMessageType]
  have hred : (handleMessage cfg st now m).messages =
      st.messages.filter (remoteClearKeep m.source ids types) := by
    unfold handleMessage handleMessageCore
    rw [if_neg (by simp [hsb]), if_pos hint, if_pos (by simp [ht]), hp]
  rw [hred, List.mem_filter]
  refine and_congr_right fun _ => ?_
  unfold remoteClearKeep
  by_cases hsrc : x.source = m.source
  · simp only [hsrc, List.isEmpty_iff, and_assoc]
    simp
    tauto
  · simp [hsrc, if_pos]

/-- The remote-clear envelope from source other carrying ids criterion [a1]
and no types criterion, addressed to the chanA endpoint. -/
def mClearA : BroadcastMessage :=
  { id := "c1", type := clearTag cfgA, payload := .clearCriteria (some ["a1"]) none,
    timestamp := 2, source := "other" }

/-- A user message from source other with id a1. -/
def mOtherA1 : BroadcastMessage :=
  { id := "a1", type := "x", payload := .empty, timestamp := 1, source := "other" }

/-- A state holding one message from other and one from s1. -/
def stPair : EndpointState := { messages := [mOtherA1, mSample] }

/-- C9 witness: the theorem at the chanA endpoint processing a concrete
remote-clear envelope, instantiated at the message the clear targets. -/
theorem C9_witness :
    mOtherA1 ∈ (handleMessage cfgA stPair 5 mClearA).messages ↔
      mOtherA1 ∈ stPair.messages ∧
        ¬(mOtherA1.source = mClearA.source ∧
            (["a1"] = ([] : List String) ∨ mOtherA1.id ∈ ["a1"]) ∧
            (([] : List String) = [] ∨ mOtherA1.type ∈ ([] : List String))) :=
  C9_remote_clear_scoped cfgA stPair 5 mClearA ["a1"] [] mOtherA1 (by decide) rfl rfl

/-- C6: a redelivery whose id has a deduplication record with a (positive)
receipt time within the window is dropped with no state change; a delivery
whose record is outside the window, or has no record at all (for example
after the purge sweep), is accepted and the receipt time is set to now. -/
theorem C6_deduplication_window (cfg : EndpointConfig) (st : EndpointState) (now : Int)
    (m : BroadcastMessage) (hs : m.source ≠ cfg.source)
    (hint : isInternalType m.type = false)
    (hreg : cfg.registeredTypes = [] ∨ m.type ∈ cfg.registeredTypes)
    (hexp : isMessageExpired m now = false) :
    (∀ t : Int, dedupGet st.receivedMessageIds m.id = some t → 0 < t →
        now - t < cfg.deduplicationTTL → handleMessage cfg st now m = st) ∧
      (∀ t : Int, dedupGet st.receivedMessageIds m.id = some t →
          cfg.deduplicationTTL ≤ now - t →
          handleMessage cfg st now m =
            { messages := if cfg.keepLatestMessage then [m] else st.messages ++ [m]
              receivedMessageIds := dedupSet st.receivedMessageIds m.id now }) ∧
      (dedupGet st.receivedMessageIds m.id = none →
        handleMessage cfg st now m =
          { messages := if cfg.keepLatestMessage then [m] else st.messages ++ [m]
            receivedMessageIds := dedupSet st.receivedMessageIds m.id now }) := by
  have hsb : (m.source == cfg.source) = false := beq_eq_false_iff_ne.mpr hs
  have hrb : (cfg.registeredTypes.length > 0 && !(cfg.registeredTypes.contains m.type)) = false := by
    rcases hreg with h | h
    · simp [h]
    · simp [h]
  have hrp : ¬(0 < cfg.registeredTypes.length ∧ m.type ∉ cfg.registeredTypes) := by
    rcases hreg with h | h
    · simp [h]
    · simp [h]
  have huser : handleMessage cfg st now m = (handleUserCore cfg st now m).1 := by
    unfold handleMessage handleMessageCore
    rw [if_neg (by simp [hsb]), if_neg (by simp [isValidInternalClearMessage, hint])]
  refine ⟨?_, ?_, ?_⟩
  · intro t hget hpos hlt
    have hhit : dedupHit (some t) now cfg.deduplicationTTL = true := by
      simp only [dedupHit]
      rw [if_neg (by simp; omega)]
      exact decide_eq_true hlt
    rw [huser]
    unfold handleUserCore
    simp [hrb, hexp, hget, hhit, hrp]
  · intro t hget hge
    have hhit : dedupHit (some t) now cfg.deduplicationTTL = false := by
      simp only [dedupHit]
      by_cases h0 : t = 0
      · simp [h0]
      · rw [if_neg (by simp [h0])]
        simp
        omega
    rw [huser]
    unfold handleUserCore
    simp [hrb, hexp, hget, hhit, hrp]
  · intro hget
    rw [huser]
    unfold handleUserCore
    simp [hrb, hexp, hget, dedupHit, hrp]

/-- An endpoint configuration with a deduplication window of 100. -/
def cfgTTL : EndpointConfig :=
  { source := "me", channelName := "chanA", deduplicationTTL := 100 }

/-- A state whose dedup map records id u1 received at time 5. -/
def stDedup : EndpointState := { messages := [], receivedMessageIds := [("u1", 5)] }

/-- A user message from another source with id u1. -/
def mUser : BroadcastMessage :=
  { id := "u1", type := "x", payload := .empty, timestamp := 1, source := "other" }

/-- C6 witness: the theorem's drop branch at a concrete redelivery 5 time
units after receipt, inside the 100-unit window. -/
theorem C6_witness : handleMessage cfgTTL stDedup 10 mUser = stDedup :=
  (C6_deduplication_window cfgTTL stDedup 10 mUser (by decide) (by decide) (Or.inl rfl)
      (by rfl)).1 5 rfl (by decide) (by decide)

set_option maxHeartbeats 1000000 in
/-- Helper: every outcome of handleMessageCore either leaves the state
unchanged, filters the message list in place, or accepts the incoming
message with the keep-latest replacement. -/
theorem handleMessageCore_cases (cfg : EndpointConfig) (st : EndpointState) (now : Int)
    (m : BroadcastMessage) :
    handleMessageCore cfg st now m = (st, none) ∨
      (∃ p, handleMessageCore cfg st now m =
          ({ messages := st.messages.filter p, receivedMessageIds := st.receivedMessageIds },
            none)) ∨
      handleMessageCore cfg st now m =
        ({ messages := if cfg.keepLatestMessage then [m] else st.messages ++ [m]
           receivedMessageIds := dedupSet st.receivedMessageIds m.id now }, some m) := by
  unfold handleMessageCore handleUserCore
  split_ifs
  all_goals
    first
      | exact Or.inl rfl
      | exact Or.inr (Or.inr rfl)
      | exact Or.inr (Or.inl ⟨_, rfl⟩)

/-- Helper: clearReceivedMessages either filters the list in place or
empties it. -/
theorem clearReceivedMessages_cases (opts : ClearReceivedMessagesOptions)
    (prev : List BroadcastMessage) :
    (∃ p, clearReceivedMessages opts prev = prev.filter p) ∨
      clearReceivedMessages opts prev = [] := by
  unfold clearReceivedMessages
  by_cases h : (optNonempty opts.ids || optNonempty opts.types || optNonempty opts.sources) = true
  · refine Or.inl ⟨fun msg =>
      !(optIncludes opts.ids msg.id) && !(optIncludes opts.types msg.type) &&
        !(optIncludes opts.sources msg.source), ?_⟩
    simp [h]
  · exact Or.inr (by simp [h])

/-- The keep-latest invariant: at most one visible message, and a sole
visible message is the last accepted one. -/
def KeepInv (st : EndpointState) (log : List BroadcastMessage) : Prop :=
  st.messages.length ≤ 1 ∧
    (st.messages = [] ∨ ∃ m, st.messages = [m] ∧ log.getLast? = some m)

/-- Helper: a filtered singleton is empty or that singleton. -/
theorem filter_singleton_cases (p : BroadcastMessage → Bool) (m : BroadcastMessage) :
    [m].filter p = [] ∨ [m].filter p = [m] := by
  by_cases h : p m
  · right
    simp [List.filter, h]
  · left
    simp [List.filter, h]

/-- Helper: filtering preserves the keep-latest invariant. -/
theorem keepInv_filter {st : EndpointState} {log : List BroadcastMessage}
    (h : KeepInv st log) (p : BroadcastMessage → Bool) (ids : List (String × Int)) :
    KeepInv { messages := st.messages.filter p, receivedMessageIds := ids } log := by
  obtain ⟨hlen, hrest⟩ := h
  rcases hrest with hnil | ⟨m, hm, hlast⟩
  · rw [hnil]
    exact ⟨by simp, Or.inl (by simp)⟩
  · rw [hm]
    rcases filter_singleton_cases p m with hf | hf
    · rw [hf]
      exact ⟨by simp, Or.inl rfl⟩
    · rw [hf]
      exact ⟨by simp, Or.inr ⟨m, rfl, hlast⟩⟩

/-- Helper: one trace operation preserves the keep-latest invariant. -/
theorem keepInv_step (cfg : EndpointConfig) (hk : cfg.keepLatestMessage = true)
    (st : EndpointState) (log : List BroadcastMessage) (op : EndpointOp)
    (h : KeepInv st log) :
    KeepInv (applyOpCore cfg st op).1 (log ++ ((applyOpCore cfg st op).2).toList) := by
  cases op with
  | receive now m =>
      rcases handleMessageCore_cases cfg st now m with hc | ⟨p, hc⟩ | hc <;>
        simp only [applyOpCore, hc]
      · simpa using h
      · simpa using keepInv_filter h p st.receivedMessageIds
      · refine ⟨by simp [hk], Or.inr ⟨m, by simp [hk], ?_⟩⟩
        simp
  | sweep now =>
      simp only [applyOpCore]
      simpa using keepInv_filter h (fun m => !(isMessageExpired m now)) st.receivedMessageIds
  | clearReceived opts =>
      simp only [applyOpCore]
      rcases clearReceivedMessages_cases opts st.messages with ⟨p, hc⟩ | hc <;> rw [hc]
      · simpa using keepInv_filter h p st.receivedMessageIds
      · exact ⟨by simp, Or.inl rfl⟩

/-- C8: with the keep-latest policy enabled, after any trace of receive,
sweep and clear operations from the empty state the visible collection
holds at most one message, and a sole member is the most recently accepted
envelope (the last entry of the acceptance log). -/
theorem C8_keep_latest_invariant (cfg : EndpointConfig) (hk : cfg.keepLatestMessage = true)
    (ops : List EndpointOp) :
    (runOpsLog cfg ({ }, []) ops).1.messages.length ≤ 1 ∧
      ((runOpsLog cfg ({ }, []) ops).1.messages = [] ∨
        ∃ m, (runOpsLog cfg ({ }, []) ops).1.messages = [m] ∧
          (runOpsLog cfg ({ }, []) ops).2.getLast? = some m) := by
  have main : ∀ (l : List EndpointOp) (st : EndpointState) (log : List BroadcastMessage),
      KeepInv st log → KeepInv (runOpsLog cfg (st, log) l).1 (runOpsLog cfg (st, log) l).2 := by
    intro l
    induction l with
    | nil =>
        intro st log h
        simpa [runOpsLog] using h
    | cons op rest ih =>
        intro st log h
        simp only [runOpsLog]
        exact ih _ _ (keepInv_step cfg hk st log op h)
  exact main ops { } [] ⟨by simp, Or.inl rfl⟩

/-- An endpoint configuration with the keep-latest policy enabled. -/
def cfgKeep : EndpointConfig :=
  { source := "me", channelName := "chanA", keepLatestMessage := true }

/-- C8 witness: the invariant after a concrete two-receive trace under the
keep-latest configuration. -/
theorem C8_witness :
    (runOpsLog cfgKeep ({ }, []) [.receive 5 mSample, .receive 6 mOtherA1]).1.messages.length ≤ 1 ∧
      ((runOpsLog cfgKeep ({ }, []) [.receive 5 mSample, .receive 6 mOtherA1]).1.messages = [] ∨
        ∃ m,
          (runOpsLog cfgKeep ({ }, []) [.receive 5 mSample, .receive 6 mOtherA1]).1.messages =
              [m] ∧
            (runOpsLog cfgKeep ({ }, []) [.receive 5 mSample, .receive 6 mOtherA1]).2.getLast? =
              some m) :=
  C8_keep_latest_invariant cfgKeep rfl [.receive 5 mSample, .receive 6 mOtherA1]

end ReactBroadcastSync
